import Mathlib

/-
  A shallow embedding of the cratehacker ingestion / normalization /
  aggregation pipeline (Rekordbox XML DJ-library analyzer), together with
  theorems settling the specification claims about it.

  Modelling conventions for the JavaScript/TypeScript source:
  * a JS string is a `List Char` (`JStr`);
  * a JS number is a `JsNum := Option ℚ`, where `none` models `NaN` and
    `some q` a finite value (the programs under verification use no
    infinities);
  * an optional (`number | undefined`) field is an `Option JsNum`, the outer
    `none` modelling `undefined`;
  * a JS `Date` is its time value, `JsDate := Option ℤ` with `none`
    modelling an Invalid Date (`getTime()` returning `NaN`);
  * fallible code is embedded in `Except String`.
-/

namespace CrateHacker

/-- A JavaScript string, modelled as its list of characters. -/
abbrev JStr := List Char

/-- A JavaScript number: `none` models `NaN`, `some q` a finite value. -/
abbrev JsNum := Option ℚ

/-- A JavaScript `Date`, by its time value; `none` models an Invalid Date. -/
abbrev JsDate := Option ℤ

/-- JS `String(x)` applied to a `string | undefined` value:
`String(undefined)` is the eight-character string `"undefined"`. -/
def jsStr : Option JStr → JStr
  | none => "undefined".data
  | some s => s

/-- JS truthiness of a `string | undefined` value: `undefined` and the
empty string are falsy, every other string is truthy. -/
def strTruthy : Option JStr → Bool
  | none => false
  | some s => !s.isEmpty

/-- JS truthiness of a `number | undefined` value: `undefined`, `NaN`
and `0` are falsy. -/
def numTruthy : Option JsNum → Bool
  | some (some q) => q != 0
  | _ => false

/-- JS `x || 0` for a `number | undefined` value (`undefined`, `NaN` and
`0` all give `0`; any other number gives itself). -/
def numOr0 : Option JsNum → ℚ
  | some (some q) => q
  | _ => 0

/-- JS `Math.round`: round half up to the nearest integer. -/
def jsRound (q : ℚ) : ℤ := ⌊q + 1/2⌋

/-- JS `Math.floor`. -/
def jsFloor (q : ℚ) : ℤ := ⌊q⌋

/-- The `Track` record of `types/library.ts`.  String-valued optional
fields are `Option JStr`; numeric optional fields are `Option JsNum`. -/
structure Track where
  id : JStr
  title : JStr
  artist : JStr
  album : Option JStr
  genre : Option (List JStr)
  bpm : Option JsNum
  key : Option JStr
  rating : Option JsNum
  playCount : Option JsNum
  duration : JsNum
  dateAdded : JsDate
  location : JStr
  trackNumber : Option JsNum
  year : Option JsNum
  comments : Option JStr
  tonality : Option JStr
  bitRate : Option JsNum
  sampleRate : Option JsNum
  label : Option JStr
  remixer : Option JStr
  composer : Option JStr
  grouping : Option JStr
deriving Repr, DecidableEq

/-- `computeAverageBpm` of `src/lib/analytics.ts`: filter the tracks whose
`bpm` is not `undefined`, return `0` if none remain, otherwise
`Math.round` of `sum / count` where each summand is `t.bpm || 0`. -/
def computeAverageBpm (tracks : List Track) : ℚ :=
  let tracksWithBpm := tracks.filter (fun t => t.bpm.isSome)
  if tracksWithBpm.length = 0 then 0
  else
    let sum := tracksWithBpm.foldl (fun acc t => acc + numOr0 t.bpm) 0
    (jsRound (sum / tracksWithBpm.length) : ℚ)

/-- The bpm values of the tracks whose bpm is present and not `NaN`
(specification-side helper for stating the average-bpm claim). -/
def bpmValues (tracks : List Track) : List ℚ :=
  tracks.filterMap (fun t => t.bpm.bind id)

/-- Arithmetic mean of a list of rationals (`0` for the empty list,
by `ℚ`-division conventions). -/
def arithMean (l : List ℚ) : ℚ := l.sum / l.length

/-- A track having every field absent, empty or zero, used as the base
point of concrete test inputs. -/
def baseTrack : Track where
  id := []
  title := []
  artist := []
  album := none
  genre := none
  bpm := none
  key := none
  rating := none
  playCount := none
  duration := some 0
  dateAdded := some 0
  location := []
  trackNumber := none
  year := none
  comments := none
  tonality := none
  bitRate := none
  sampleRate := none
  label := none
  remixer := none
  composer := none
  grouping := none

/-- A track whose bpm is the finite value `q`. -/
def trackWithBpm (q : ℚ) : Track := { baseTrack with bpm := some (some q) }

lemma bpmValues_eq_filter (tracks : List Track) (h : ∀ t ∈ tracks, t.bpm ≠ some none) :
    bpmValues tracks
      = (tracks.filter (fun t => t.bpm.isSome)).map (fun t => numOr0 t.bpm) := by
  induction tracks with
  | nil => rfl
  | cons t ts ih =>
    have hts : ∀ u ∈ ts, u.bpm ≠ some none := fun u hu => h u (List.mem_cons_of_mem _ hu)
    cases hb : t.bpm with
    | none =>
      simpa [bpmValues, List.filterMap_cons, hb, List.filter_cons] using ih hts
    | some x =>
      cases x with
      | none => exact absurd hb (h t (List.mem_cons_self _ _))
      | some q =>
        simpa [bpmValues, List.filterMap_cons, hb, List.filter_cons, numOr0] using ih hts

lemma foldl_add_map {α : Type} (f : α → ℚ) (l : List α) (a : ℚ) :
    l.foldl (fun acc x => acc + f x) a = a + (l.map f).sum := by
  induction l generalizing a with
  | nil => simp
  | cons x xs ih => simp [ih, add_assoc]

/-- Claim C1 (corrected): `computeAverageBpm` equals the arithmetic mean of
the present bpm values rounded half-up to the nearest integer (and `0` when
no track has a bpm present) — not the arithmetic mean itself. -/
theorem averageBpm_rounds_mean (tracks : List Track)
    (h : ∀ t ∈ tracks, t.bpm ≠ some none) :
    computeAverageBpm tracks =
      if bpmValues tracks = [] then 0
      else (jsRound (arithMean (bpmValues tracks)) : ℚ) := by
  have key := bpmValues_eq_filter tracks h
  unfold computeAverageBpm
  by_cases hl : tracks.filter (fun t => t.bpm.isSome) = []
  · simp [hl, key]
  · have hlen : ¬ (tracks.filter (fun t => t.bpm.isSome)).length = 0 := by
      simpa [List.length_eq_zero] using hl
    have hmap : ¬ bpmValues tracks = [] := by
      rw [key]; simpa [List.map_eq_nil_iff] using hl
    rw [key] at hmap ⊢
    simp only [if_neg hlen, if_neg hmap]
    rw [foldl_add_map]
    simp [arithMean]

/-- Claim C1, counterexample to the claim as stated: for two tracks with
bpm `1` and bpm `2` (both present), the computed average is `2`, while the
arithmetic mean of the present bpm values is `3/2`. -/
theorem averageBpm_counterexample :
    (∀ t ∈ [trackWithBpm 1, trackWithBpm 2], t.bpm.isSome) ∧
    computeAverageBpm [trackWithBpm 1, trackWithBpm 2]
      ≠ arithMean (bpmValues [trackWithBpm 1, trackWithBpm 2]) := by
  refine ⟨by decide, ?_⟩
  norm_num [computeAverageBpm, trackWithBpm, baseTrack, numOr0, jsRound,
    arithMean, bpmValues, List.filterMap_cons]

/-- Witness for `averageBpm_rounds_mean` at a concrete input. -/
theorem averageBpm_rounds_mean_witness :
    computeAverageBpm [trackWithBpm 1, trackWithBpm 2] =
      if bpmValues [trackWithBpm 1, trackWithBpm 2] = [] then 0
      else (jsRound (arithMean (bpmValues [trackWithBpm 1, trackWithBpm 2])) : ℚ) :=
  averageBpm_rounds_mean _ (by decide)

/-! ### Genre Splitter (`src/lib/genre-utils.ts`) -/

/-- JS `s.split(';')`: cut the string at every `';'`; the empty string
splits to one empty segment. -/
def splitSemi : JStr → List JStr
  | [] => [[]]
  | c :: rest =>
    match splitSemi rest with
    | [] => [[c]]
    | h :: t => if c = ';' then [] :: h :: t else (c :: h) :: t

/-- JS `s.trim()`: drop whitespace from both ends. -/
def jsTrim (s : JStr) : JStr :=
  ((s.dropWhile Char.isWhitespace).reverse.dropWhile Char.isWhitespace).reverse

/-- `parseGenres` of `src/lib/genre-utils.ts`: `undefined`, the empty
string and whitespace-only strings give `undefined`; otherwise split on
`';'`, trim every segment, keep the nonempty ones, and return `undefined`
in place of an empty list. -/
def parseGenres : Option JStr → Option (List JStr)
  | none => none
  | some s =>
    if s.isEmpty || (jsTrim s).isEmpty then none
    else
      let genres := ((splitSemi s).map jsTrim).filter (fun g => g.length > 0)
      if genres.length > 0 then some genres else none

/-- The Genre Splitter as the specification words it: split the raw field
on `';'`, trim each segment, drop empty segments, absent when no segment
remains (reference definition for the refinement claim C8). -/
def parseGenresSpec : Option JStr → Option (List JStr)
  | none => none
  | some s =>
    let gs := ((splitSemi s).map jsTrim).filter (fun g => !g.isEmpty)
    if gs.isEmpty then none else some gs

lemma dropWhile_ws_forall (s : JStr) :
    (∀ x ∈ s.dropWhile Char.isWhitespace, x.isWhitespace)
      ↔ (∀ x ∈ s, x.isWhitespace) := by
  induction s with
  | nil => simp
  | cons c cs ih =>
    by_cases hc : c.isWhitespace
    · simp [List.dropWhile_cons, hc, ih]
    · simp [List.dropWhile_cons, hc]

lemma jsTrim_eq_nil_iff (s : JStr) :
    jsTrim s = [] ↔ ∀ c ∈ s, c.isWhitespace := by
  unfold jsTrim
  rw [List.reverse_eq_nil_iff, List.dropWhile_eq_nil_iff]
  constructor
  · intro h
    rw [← dropWhile_ws_forall s]
    intro c hc
    exact h c (List.mem_reverse.mpr hc)
  · intro h c hc
    exact ((dropWhile_ws_forall s).mpr h) c (List.mem_reverse.mp hc)

lemma splitSemi_all_whitespace (s : JStr) (h : ∀ c ∈ s, c.isWhitespace) :
    splitSemi s = [s] := by
  induction s with
  | nil => rfl
  | cons c rest ih =>
    have hc : c ≠ ';' := by
      intro he
      have := h c (List.mem_cons_self _ _)
      rw [he] at this
      exact absurd this (by decide)
    have hrest := ih (fun d hd => h d (List.mem_cons_of_mem _ hd))
    simp [splitSemi, hrest, hc]

/-- Claim C8 (confirmed): the Genre Splitter coincides with the
specification-side splitter (split on `';'`, trim, drop empty, absent when
nothing remains), and the scenario input
`"Electro; Techno/House; Dance"` yields `["Electro","Techno/House","Dance"]`. -/
theorem parseGenres_correct :
    (∀ g, parseGenres g = parseGenresSpec g) ∧
    parseGenres (some "Electro; Techno/House; Dance".data) =
      some ["Electro".data, "Techno/House".data, "Dance".data] := by
  constructor
  · intro g
    match g with
    | none => rfl
    | some s =>
      cases s with
      | nil => rfl
      | cons c cs =>
        by_cases ht : jsTrim (c :: cs) = []
        · have hsplit := splitSemi_all_whitespace _ ((jsTrim_eq_nil_iff _).mp ht)
          simp [parseGenres, parseGenresSpec, ht, hsplit]
        · have hfc : ((splitSemi (c :: cs)).map jsTrim).filter (fun g => decide (g.length > 0))
              = ((splitSemi (c :: cs)).map jsTrim).filter (fun g => !g.isEmpty) := by
            refine List.filter_congr (fun x _ => ?_)
            cases x <;> simp
          obtain ⟨d, ds, hj⟩ : ∃ d ds, jsTrim (c :: cs) = d :: ds := by
            rcases hth : jsTrim (c :: cs) with _ | ⟨d, ds⟩
            · exact absurd hth ht
            · exact ⟨d, ds, rfl⟩
          simp only [parseGenres, parseGenresSpec, hj, List.isEmpty_cons, Bool.or_false,
            Bool.false_eq_true, if_false]
          rw [hfc]
          rcases hgs : ((splitSemi (c :: cs)).map jsTrim).filter (fun g => !g.isEmpty)
            with _ | ⟨a, l⟩
          · have hcond : ∀ x ∈ splitSemi (c :: cs), jsTrim x = [] := by
              intro x hx
              have hb := List.filter_eq_nil_iff.mp hgs (jsTrim x)
                (List.mem_map_of_mem jsTrim hx)
              simpa using hb
            simp [hgs, hcond]
          · have ha : a ∈ ((splitSemi (c :: cs)).map jsTrim).filter (fun g => !g.isEmpty) := by
              rw [hgs]; exact List.mem_cons_self _ _
            obtain ⟨hmem, hne⟩ := List.mem_filter.mp ha
            obtain ⟨b, hb, hab⟩ := List.mem_map.mp hmem
            have hcond : ¬ ∀ x ∈ splitSemi (c :: cs), jsTrim x = [] := by
              intro hall
              rw [← hab, hall b hb] at hne
              simp at hne
            simp [hgs, hcond]
  · decide

/-! ### BPM distribution and top tracks (`src/lib/analytics.ts`) -/

/-- The `BpmDistribution` record: the `range` label `"<start>-<start+size>"`
is modelled by its two numeric slots `rangeLo` and `rangeHi`. -/
structure BpmBucket where
  rangeLo : ℚ
  rangeHi : ℚ
  count : ℕ
  rangeStart : ℚ
deriving Repr, DecidableEq

/-- `Math.floor(bpm / bucketSize) * bucketSize`. -/
def bucketStart (bucketSize q : ℚ) : ℚ := (jsFloor (q / bucketSize) : ℚ) * bucketSize

/-- One step of the JS `Map` bucket accumulation:
`buckets.set(k, (buckets.get(k) || 0) + 1)` — increment an existing key in
place, or append a new key at the end (JS `Map` preserves insertion order). -/
def mapIncr (m : List (ℚ × ℕ)) (k : ℚ) : List (ℚ × ℕ) :=
  match m with
  | [] => [(k, 1)]
  | (k', c) :: rest => if k' = k then (k', c + 1) :: rest else (k', c) :: mapIncr rest k

/-- `computeBpmDistribution` of `src/lib/analytics.ts`: for every track with
a truthy `bpm`, increment the bucket keyed by
`Math.floor(bpm / bucketSize) * bucketSize`; then map entries to records
labelled with the bucket bounds and sort ascending by `rangeStart`. -/
def computeBpmDistribution (tracks : List Track) (bucketSize : ℚ) : List BpmBucket :=
  let buckets := tracks.foldl
    (fun m t => if numTruthy t.bpm then mapIncr m (bucketStart bucketSize (numOr0 t.bpm)) else m) []
  (buckets.map (fun p => ⟨p.1, p.1 + bucketSize, p.2, p.1⟩)).insertionSort
    (fun a b => a.rangeStart ≤ b.rangeStart)

/-- `getTopTracks` of `src/lib/analytics.ts`: keep the tracks whose
`playCount` is truthy and `> 0`, sort by play count descending, take the
first `limit`. -/
def getTopTracks (tracks : List Track) (limit : ℕ) : List Track :=
  ((tracks.filter
      (fun t => numTruthy t.playCount && decide (0 < numOr0 t.playCount))).insertionSort
    (fun a b => numOr0 b.playCount ≤ numOr0 a.playCount)).take limit

/-- A track whose play count is the finite value `q`. -/
def trackWithPlay (q : ℚ) : Track := { baseTrack with playCount := some (some q) }

/-- Claim C10 (confirmed): every track returned by `getTopTracks` has a
present play count that is strictly positive; tracks with an absent or zero
play count never appear. -/
theorem topTracks_only_positive_playCount :
    ∀ (tracks : List Track) (limit : ℕ) (t : Track),
      t ∈ getTopTracks tracks limit → ∃ q : ℚ, t.playCount = some (some q) ∧ 0 < q := by
  intro tracks limit t ht
  have h1 := List.take_subset _ _ ht
  have h2 := (List.perm_insertionSort
    (fun a b : Track => numOr0 b.playCount ≤ numOr0 a.playCount) _).subset h1
  have h3 := (List.mem_filter.mp h2).2
  rcases hp : t.playCount with _ | q'
  · rw [hp] at h3; simp [numTruthy] at h3
  · rcases q' with _ | q
    · rw [hp] at h3; simp [numTruthy] at h3
    · refine ⟨q, rfl, ?_⟩
      rw [hp] at h3
      simpa [numTruthy, numOr0] using (Bool.and_elim_right h3)

/-- Witness for `topTracks_only_positive_playCount` at a concrete input. -/
theorem topTracks_only_positive_playCount_witness :
    ∃ q : ℚ, (trackWithPlay 5).playCount = some (some q) ∧ 0 < q :=
  topTracks_only_positive_playCount [trackWithPlay 5] 10 (trackWithPlay 5) (by decide)

/-! ### Correctness of the BPM bucket map -/

/-- The bucket keys produced by the tracks with truthy bpm, in order. -/
def bucketKeys (tracks : List Track) (bucketSize : ℚ) : List ℚ :=
  tracks.filterMap
    (fun t => if numTruthy t.bpm then some (bucketStart bucketSize (numOr0 t.bpm)) else none)

/-- The bucket map built from a list of keys. -/
def buildMap (ks : List ℚ) : List (ℚ × ℕ) := ks.foldl mapIncr []

/-- Keys of an association list. -/
def keysOf (m : List (ℚ × ℕ)) : List ℚ := m.map Prod.fst

/-- First-match lookup in an association list, `0` when absent. -/
def lookupC (m : List (ℚ × ℕ)) (q : ℚ) : ℕ :=
  match m with
  | [] => 0
  | (k', c) :: rest => if k' = q then c else lookupC rest q

lemma lookupC_mapIncr (m : List (ℚ × ℕ)) (k q : ℚ) :
    lookupC (mapIncr m k) q = lookupC m q + (if q = k then 1 else 0) := by
  induction m with
  | nil =>
    by_cases h : q = k
    · subst h; simp [mapIncr, lookupC]
    · simp [mapIncr, lookupC, h, Ne.symm h]
  | cons p rest ih =>
    obtain ⟨a, c⟩ := p
    by_cases hak : a = k
    · subst hak
      by_cases haq : a = q
      · subst haq; simp [mapIncr, lookupC]
      · simp [mapIncr, lookupC, haq, Ne.symm haq]
    · by_cases haq : a = q
      · subst haq
        simp [mapIncr, lookupC, hak, Ne.symm hak]
      · simp [mapIncr, lookupC, hak, haq, ih]

lemma keysOf_mapIncr (m : List (ℚ × ℕ)) (k : ℚ) :
    keysOf (mapIncr m k) = if k ∈ keysOf m then keysOf m else keysOf m ++ [k] := by
  induction m with
  | nil => simp [mapIncr, keysOf]
  | cons p rest ih =>
    obtain ⟨a, c⟩ := p
    by_cases hak : a = k
    · subst hak; simp [mapIncr, keysOf]
    · have hka : ¬ k = a := Ne.symm hak
      simp only [keysOf, List.map_cons] at ih ⊢
      simp only [mapIncr, if_neg hak, List.map_cons]
      rw [ih]
      by_cases hk : k ∈ rest.map Prod.fst
      · simp [hk]
      · simp [hk, hka]

lemma sum_mapIncr (m : List (ℚ × ℕ)) (k : ℚ) :
    ((mapIncr m k).map Prod.snd).sum = (m.map Prod.snd).sum + 1 := by
  induction m with
  | nil => simp [mapIncr]
  | cons p rest ih =>
    obtain ⟨a, c⟩ := p
    by_cases hak : a = k
    · subst hak; simp [mapIncr]; omega
    · simp [mapIncr, hak, ih]; omega

lemma nodup_mapIncr (m : List (ℚ × ℕ)) (k : ℚ) (h : (keysOf m).Nodup) :
    (keysOf (mapIncr m k)).Nodup := by
  rw [keysOf_mapIncr]
  by_cases hk : k ∈ keysOf m
  · simpa [hk] using h
  · simpa [hk, List.nodup_append] using h

lemma mem_keysOf_mapIncr (m : List (ℚ × ℕ)) (k q : ℚ) :
    q ∈ keysOf (mapIncr m k) ↔ q ∈ keysOf m ∨ q = k := by
  rw [keysOf_mapIncr]
  by_cases hk : k ∈ keysOf m
  · simp only [if_pos hk]
    constructor
    · exact Or.inl
    · rintro (h | rfl)
      · exact h
      · exact hk
  · simp [hk]

lemma entry_lookupC (m : List (ℚ × ℕ)) (h : (keysOf m).Nodup) :
    ∀ p ∈ m, lookupC m p.1 = p.2 := by
  induction m with
  | nil => intro p hp; cases hp
  | cons x rest ih =>
    obtain ⟨a, c⟩ := x
    intro p hp
    rcases List.mem_cons.mp hp with rfl | hp'
    · simp [lookupC]
    · have ha : a ∉ keysOf rest := by
        have := h
        simp only [keysOf, List.map_cons, List.nodup_cons] at this
        exact this.1
      have hne : a ≠ p.1 := by
        intro he
        exact ha (he ▸ List.mem_map_of_mem Prod.fst hp')
      have hrest : (keysOf rest).Nodup := by
        have := h
        simp only [keysOf, List.map_cons, List.nodup_cons] at this
        exact this.2
      simp [lookupC, hne, ih hrest p hp']

lemma buildMap_lookup_general (ks : List ℚ) :
    ∀ (m : List (ℚ × ℕ)) (q : ℚ),
      lookupC (ks.foldl mapIncr m) q = lookupC m q + ks.count q := by
  induction ks with
  | nil => intro m q; simp
  | cons k rest ih =>
    intro m q
    rw [List.foldl_cons, ih, lookupC_mapIncr, List.count_cons]
    by_cases h : q = k
    · subst h; simp; omega
    · simp [h, Ne.symm h]

lemma buildMap_lookup (ks : List ℚ) (q : ℚ) :
    lookupC (buildMap ks) q = ks.count q := by
  have := buildMap_lookup_general ks [] q
  simpa [buildMap, lookupC] using this

lemma buildMap_nodup_general (ks : List ℚ) :
    ∀ (m : List (ℚ × ℕ)), (keysOf m).Nodup → (keysOf (ks.foldl mapIncr m)).Nodup := by
  induction ks with
  | nil => intro m hm; simpa using hm
  | cons k rest ih =>
    intro m hm
    exact ih _ (nodup_mapIncr m k hm)

lemma buildMap_nodup (ks : List ℚ) : (keysOf (buildMap ks)).Nodup :=
  buildMap_nodup_general ks [] (by simp [keysOf])

lemma buildMap_mem_general (ks : List ℚ) :
    ∀ (m : List (ℚ × ℕ)) (q : ℚ),
      q ∈ keysOf (ks.foldl mapIncr m) ↔ q ∈ keysOf m ∨ q ∈ ks := by
  induction ks with
  | nil => intro m q; simp
  | cons k rest ih =>
    intro m q
    rw [List.foldl_cons, ih, mem_keysOf_mapIncr, List.mem_cons]
    tauto

lemma buildMap_mem (ks : List ℚ) (q : ℚ) : q ∈ keysOf (buildMap ks) ↔ q ∈ ks := by
  have := buildMap_mem_general ks [] q
  simpa [buildMap, keysOf] using this

lemma buildMap_sum_general (ks : List ℚ) :
    ∀ (m : List (ℚ × ℕ)),
      (((ks.foldl mapIncr m)).map Prod.snd).sum = (m.map Prod.snd).sum + ks.length := by
  induction ks with
  | nil => intro m; simp
  | cons k rest ih =>
    intro m
    rw [List.foldl_cons, ih, sum_mapIncr, List.length_cons]
    omega

lemma buildMap_sum (ks : List ℚ) : ((buildMap ks).map Prod.snd).sum = ks.length := by
  have := buildMap_sum_general ks []
  simpa [buildMap] using this

lemma foldl_buckets (tracks : List Track) (bucketSize : ℚ) :
    ∀ m, tracks.foldl
        (fun m t => if numTruthy t.bpm then mapIncr m (bucketStart bucketSize (numOr0 t.bpm)) else m) m
      = (bucketKeys tracks bucketSize).foldl mapIncr m := by
  induction tracks with
  | nil => intro m; rfl
  | cons t ts ih =>
    intro m
    cases ht : numTruthy t.bpm with
    | false => simp [bucketKeys, List.filterMap_cons, ht, ih]
    | true => simp [bucketKeys, List.filterMap_cons, ht, ih]

lemma bucketKeys_length (tracks : List Track) (bucketSize : ℚ) :
    (bucketKeys tracks bucketSize).length
      = (tracks.filter (fun t => numTruthy t.bpm)).length := by
  induction tracks with
  | nil => rfl
  | cons t ts ih =>
    cases ht : numTruthy t.bpm with
    | false => simpa [bucketKeys, List.filterMap_cons, ht, List.filter_cons] using ih
    | true => simpa [bucketKeys, List.filterMap_cons, ht, List.filter_cons] using ih

lemma bucketKeys_count (tracks : List Track) (bucketSize k : ℚ) :
    (bucketKeys tracks bucketSize).count k
      = (tracks.filter
          (fun t => numTruthy t.bpm && decide (bucketStart bucketSize (numOr0 t.bpm) = k))).length := by
  induction tracks with
  | nil => rfl
  | cons t ts ih =>
    cases ht : numTruthy t.bpm with
    | false => simpa [bucketKeys, List.filterMap_cons, ht, List.filter_cons] using ih
    | true =>
      by_cases hk : bucketStart bucketSize (numOr0 t.bpm) = k
      · simpa [bucketKeys, List.filterMap_cons, ht, List.filter_cons, hk,
          List.count_cons] using ih
      · simpa [bucketKeys, List.filterMap_cons, ht, List.filter_cons, hk,
          List.count_cons, Ne.symm hk] using ih

lemma bucketStart_le_lt (bucketSize q : ℚ) (hs : 0 < bucketSize) :
    bucketStart bucketSize q ≤ q ∧ q < bucketStart bucketSize q + bucketSize := by
  unfold bucketStart jsFloor
  constructor
  · calc (⌊q / bucketSize⌋ : ℚ) * bucketSize
        ≤ (q / bucketSize) * bucketSize :=
          mul_le_mul_of_nonneg_right (Int.floor_le _) (le_of_lt hs)
      _ = q := div_mul_cancel₀ q (ne_of_gt hs)
  · calc q = (q / bucketSize) * bucketSize := (div_mul_cancel₀ q (ne_of_gt hs)).symm
      _ < ((⌊q / bucketSize⌋ : ℚ) + 1) * bucketSize :=
          mul_lt_mul_of_pos_right (Int.lt_floor_add_one _) hs
      _ = (⌊q / bucketSize⌋ : ℚ) * bucketSize + bucketSize := by ring

instance : IsTotal BpmBucket (fun a b => a.rangeStart ≤ b.rangeStart) :=
  ⟨fun a b => le_total a.rangeStart b.rangeStart⟩

instance : IsTrans BpmBucket (fun a b => a.rangeStart ≤ b.rangeStart) :=
  ⟨fun _ _ _ h1 h2 => le_trans h1 h2⟩

/-- The content of claim C9, as amended: bucket totals, bucket shape
(label slots, multiples of the bucket size), ascending order, membership of
every truthy-bpm track in its bucket with the bpm inside the bucket bounds,
and exact per-bucket counts. -/
def BpmDistSpec (tracks : List Track) (bucketSize : ℚ) : Prop :=
  ((computeBpmDistribution tracks bucketSize).map (fun b => b.count)).sum
      = (tracks.filter (fun t => numTruthy t.bpm)).length
  ∧ (∀ b ∈ computeBpmDistribution tracks bucketSize,
      ∃ k : ℤ, b.rangeStart = (k : ℚ) * bucketSize)
  ∧ (∀ b ∈ computeBpmDistribution tracks bucketSize,
      b.rangeLo = b.rangeStart ∧ b.rangeHi = b.rangeStart + bucketSize)
  ∧ (computeBpmDistribution tracks bucketSize).Pairwise
      (fun a b => a.rangeStart < b.rangeStart)
  ∧ (∀ t ∈ tracks, numTruthy t.bpm = true →
      ∃ b ∈ computeBpmDistribution tracks bucketSize,
        b.rangeStart = bucketStart bucketSize (numOr0 t.bpm)
          ∧ b.rangeStart ≤ numOr0 t.bpm ∧ numOr0 t.bpm < b.rangeStart + bucketSize)
  ∧ (∀ b ∈ computeBpmDistribution tracks bucketSize,
      b.count = (tracks.filter
        (fun t => numTruthy t.bpm
          && decide (bucketStart bucketSize (numOr0 t.bpm) = b.rangeStart))).length)

/-- Claim C9 (corrected): for every positive bucket size, the BPM
distribution buckets exactly the tracks with a truthy (present and nonzero)
bpm by `floor(bpm / bucketSize) * bucketSize`, labels each bucket with the
pair `(start, start + size)`, sorts strictly ascending by bucket start,
starts every bucket at a multiple of the bucket size, and places every
bucketed bpm inside `[start, start + size)`. -/
theorem bpmDistribution_bucket_correct (tracks : List Track) (bucketSize : ℚ)
    (hs : 0 < bucketSize) : BpmDistSpec tracks bucketSize := by
  have hfold : computeBpmDistribution tracks bucketSize
      = ((buildMap (bucketKeys tracks bucketSize)).map
          (fun p => (⟨p.1, p.1 + bucketSize, p.2, p.1⟩ : BpmBucket))).insertionSort
          (fun a b => a.rangeStart ≤ b.rangeStart) := by
    unfold computeBpmDistribution buildMap
    rw [foldl_buckets]
  have hperm := List.perm_insertionSort
    (fun a b : BpmBucket => a.rangeStart ≤ b.rangeStart)
    ((buildMap (bucketKeys tracks bucketSize)).map
      (fun p => (⟨p.1, p.1 + bucketSize, p.2, p.1⟩ : BpmBucket)))
  have hmem : ∀ b, b ∈ computeBpmDistribution tracks bucketSize ↔
      b ∈ (buildMap (bucketKeys tracks bucketSize)).map
        (fun p => (⟨p.1, p.1 + bucketSize, p.2, p.1⟩ : BpmBucket)) := by
    intro b; rw [hfold]; exact hperm.mem_iff
  refine ⟨?_, ?_, ?_, ?_, ?_, ?_⟩
  · -- total count
    rw [hfold]
    have := (hperm.map (fun b : BpmBucket => b.count)).sum_eq
    rw [this, List.map_map]
    have : ((fun b : BpmBucket => b.count) ∘ fun p : ℚ × ℕ => (⟨p.1, p.1 + bucketSize, p.2, p.1⟩ : BpmBucket))
        = Prod.snd := rfl
    rw [this, buildMap_sum, bucketKeys_length]
  · -- multiples of bucket size
    intro b hb
    obtain ⟨p, hp, rfl⟩ := List.mem_map.mp ((hmem b).mp hb)
    have hkey : p.1 ∈ keysOf (buildMap (bucketKeys tracks bucketSize)) :=
      List.mem_map_of_mem Prod.fst hp
    have := (buildMap_mem _ _).mp hkey
    obtain ⟨t, _ht, hkt⟩ := List.mem_filterMap.mp this
    by_cases htr : numTruthy t.bpm
    · refine ⟨jsFloor (numOr0 t.bpm / bucketSize), ?_⟩
      simp only [htr, if_true] at hkt
      simp [← Option.some.injEq .. |>.mp hkt, bucketStart]
    · simp [htr] at hkt
  · -- label slots
    intro b hb
    obtain ⟨p, _hp, rfl⟩ := List.mem_map.mp ((hmem b).mp hb)
    exact ⟨rfl, rfl⟩
  · -- strictly ascending
    rw [hfold]
    have hsorted := List.sorted_insertionSort
      (fun a b : BpmBucket => a.rangeStart ≤ b.rangeStart)
      ((buildMap (bucketKeys tracks bucketSize)).map
        (fun p => (⟨p.1, p.1 + bucketSize, p.2, p.1⟩ : BpmBucket)))
    have hnodup : (((buildMap (bucketKeys tracks bucketSize)).map
        (fun p => (⟨p.1, p.1 + bucketSize, p.2, p.1⟩ : BpmBucket))).insertionSort
          (fun a b => a.rangeStart ≤ b.rangeStart)).Pairwise
        (fun a b => a.rangeStart ≠ b.rangeStart) := by
      have h1 : (((buildMap (bucketKeys tracks bucketSize)).map
          (fun p => (⟨p.1, p.1 + bucketSize, p.2, p.1⟩ : BpmBucket))).map
            (fun b => b.rangeStart)).Nodup := by
        rw [List.map_map]
        have : ((fun b : BpmBucket => b.rangeStart)
            ∘ fun p : ℚ × ℕ => (⟨p.1, p.1 + bucketSize, p.2, p.1⟩ : BpmBucket)) = Prod.fst := rfl
        rw [this]
        exact buildMap_nodup _
      have h2 := (hperm.symm.map (fun b : BpmBucket => b.rangeStart)).nodup_iff.mp h1
      exact (List.pairwise_map).mp h2
    exact (hsorted.and hnodup).imp (fun hab => lt_of_le_of_ne hab.1 hab.2)
  · -- membership of truthy tracks
    intro t ht htr
    have hk : bucketStart bucketSize (numOr0 t.bpm) ∈ bucketKeys tracks bucketSize := by
      refine List.mem_filterMap.mpr ⟨t, ht, ?_⟩
      simp [htr]
    have := (buildMap_mem _ _).mpr hk
    obtain ⟨p, hp, hp1⟩ := List.mem_map.mp this
    refine ⟨⟨p.1, p.1 + bucketSize, p.2, p.1⟩, ?_, ?_, ?_, ?_⟩
    · exact (hmem _).mpr (List.mem_map_of_mem _ hp)
    · exact hp1
    · rw [hp1]; exact (bucketStart_le_lt bucketSize (numOr0 t.bpm) hs).1
    · rw [hp1]; exact (bucketStart_le_lt bucketSize (numOr0 t.bpm) hs).2
  · -- per-bucket counts
    intro b hb
    obtain ⟨p, hp, rfl⟩ := List.mem_map.mp ((hmem b).mp hb)
    have hcount : p.2 = (bucketKeys tracks bucketSize).count p.1 := by
      rw [← buildMap_lookup]
      exact (entry_lookupC _ (buildMap_nodup _) p hp).symm
    rw [show (⟨p.1, p.1 + bucketSize, p.2, p.1⟩ : BpmBucket).count = p.2 from rfl,
      show (⟨p.1, p.1 + bucketSize, p.2, p.1⟩ : BpmBucket).rangeStart = p.1 from rfl,
      hcount, bucketKeys_count]

/-- Claim C9, counterexample to the claim as stated: a track whose bpm is
present with value `0` is excluded from the distribution (the source tests
`if (track.bpm)`, a truthiness test), so not every present-bpm track is
assigned to a bucket. -/
theorem bpmDistribution_counterexample :
    (trackWithBpm 0).bpm.isSome ∧ computeBpmDistribution [trackWithBpm 0] 10 = [] := by
  constructor
  · decide
  · rfl

/-- Witness for `bpmDistribution_bucket_correct` at a concrete input. -/
theorem bpmDistribution_bucket_correct_witness : BpmDistSpec [trackWithBpm 5] 10 :=
  bpmDistribution_bucket_correct [trackWithBpm 5] 10 (by decide)

/-! ### Playlist Tree Builder (`src/lib/playlist-parser.ts`) -/

mutual
/-- A raw playlist `NODE` element: `Name`, `Type`, the membership `TRACK`
keys (present iff the element has a `TRACK` child list), the `Count` and
`Entries` attributes (raw strings), and the child `NODE` forest.
Attribute values are raw strings per the decoder configuration
(`parseAttributeValue: false`); an absent attribute is `none`. -/
inductive XmlNode where
  | mk (name : Option JStr) (typeMarker : Option JStr)
       (trackEntries : Option (List JStr))
       (cnt : Option JStr) (entries : Option JStr)
       (children : XmlForest)

/-- A list of raw `NODE` elements (a separate inductive so that the tree
recursion stays structural). -/
inductive XmlForest where
  | nil
  | cons (n : XmlNode) (rest : XmlForest)
end

def XmlNode.children : XmlNode → XmlForest
  | .mk _ _ _ _ _ ch => ch

def XmlNode.name : XmlNode → Option JStr
  | .mk nm _ _ _ _ _ => nm

def XmlNode.typeMarker : XmlNode → Option JStr
  | .mk _ tm _ _ _ _ => tm

def XmlNode.trackEntries : XmlNode → Option (List JStr)
  | .mk _ _ te _ _ _ => te

def XmlNode.cnt : XmlNode → Option JStr
  | .mk _ _ _ cn _ _ => cn

def XmlNode.entries : XmlNode → Option JStr
  | .mk _ _ _ _ en _ => en

mutual
/-- Number of nodes in the tree rooted at a node (itself included). -/
def sizeN : XmlNode → ℕ
  | .mk _ _ _ _ _ ch => 1 + sizeF ch

/-- Number of nodes in a forest. -/
def sizeF : XmlForest → ℕ
  | .nil => 0
  | .cons n rest => sizeN n + sizeF rest
end

/-- The `Playlist` record of `types/library.ts`; `count` keeps the raw
`Count`/`Entries` string when one is present (JS `||` does not coerce),
`Sum.inr 0` being the `|| 0` fallback. -/
structure Playlist where
  id : JStr
  name : JStr
  type : JStr
  parentId : Option JStr
  tracks : List JStr
  count : Sum JStr ℚ
deriving Repr, DecidableEq

/-- `childNode.Count || childNode.Entries || 0`. -/
def jsOrCount (cnt entries : Option JStr) : Sum JStr ℚ :=
  if strTruthy cnt then Sum.inl (jsStr cnt)
  else if strTruthy entries then Sum.inl (jsStr entries)
  else Sum.inr 0

/-- The synthetic identity generator.  The source draws fresh ids from
`crypto.randomUUID()`; the embedding determinizes it as an injective
supply of fresh nonempty strings indexed by a run counter, which is the
property the builder relies on (uniqueness within one parse run). -/
def genId (c : ℕ) : JStr := List.replicate (c + 1) 'p'

lemma genId_inj : ∀ {a b : ℕ}, genId a = genId b → a = b := by
  intro a b h
  have := congrArg List.length h
  simpa [genId] using this

/-- Build one `Playlist` record from a raw node, per the body of the loop
in `parseNodeRecursive`: classify folder iff `String(Type) === '0'`,
default the name, link the parent, and extract the membership keys only
for playlist-kind nodes with a present `TRACK` list. -/
def nodeToPlaylist (n : XmlNode) (id : JStr) (pid : Option JStr) : Playlist :=
  let typ := if jsStr n.typeMarker = ['0'] then "folder".data else "playlist".data
  { id := id
    name := if strTruthy n.name then jsStr n.name else "Unnamed".data
    type := typ
    parentId := pid
    tracks :=
      if typ = "playlist".data then
        match n.trackEntries with
        | some keys => keys
        | none => []
      else []
    count := jsOrCount n.cnt n.entries }

mutual
/-- The recursion of `parseNodeRecursive` into a node's own children
(`if (childNode.NODE) { ... parseNodeRecursive(childNode, id) }`); the
`ℕ` argument threads the fresh-identity counter. -/
def parseNodeSub : XmlNode → JStr → ℕ → List Playlist × ℕ
  | .mk _ _ _ _ _ ch, id, c => parseForestGo ch (some id) c

/-- `parseNodeRecursive` of `src/lib/playlist-parser.ts`: emit each child
with a fresh identity and the current parent's identity, then recurse into
its children before moving to the next sibling (pre-order). -/
def parseForestGo : XmlForest → Option JStr → ℕ → List Playlist × ℕ
  | .nil, _, c => ([], c)
  | .cons n rest, pid, c =>
    let pl := nodeToPlaylist n (genId c) pid
    let r1 := parseNodeSub n (genId c) (c + 1)
    let r2 := parseForestGo rest pid r1.2
    (pl :: (r1.1 ++ r2.1), r2.2)
end

/-- `parsePlaylists` of `src/lib/playlist-parser.ts`, given the resolved
root node of the `PLAYLISTS` section (`none` models a missing or empty
section, which returns no playlists): the root itself is not emitted, its
children are parsed with an absent parent identity. -/
def parsePlaylists (playlistsRoot : Option XmlNode) : List Playlist :=
  match playlistsRoot with
  | none => []
  | some root => (parseForestGo root.children none 0).1

/-- The `while (currentId)` walk of `getPlaylistDepth`, with explicit fuel;
`none` models the loop failing to finish within the given number of
iterations (on a cyclic input the JS loop never finishes). -/
def getPlaylistDepthAux (all : List Playlist) : ℕ → Option JStr → Option ℕ
  | _, none => some 0
  | 0, some _ => none
  | fuel + 1, some cid =>
    match all.find? (fun p => decide (p.id = cid)) with
    | none => some 1
    | some parent => (getPlaylistDepthAux all fuel parent.parentId).map (fun d => d + 1)

/-- `getPlaylistDepth` of `src/lib/playlist-parser.ts`: walk `parentId`
references until one is absent; `all.length + 1` iterations suffice for
every terminating run, so a `none` result models divergence. -/
def getPlaylistDepth (p : Playlist) (all : List Playlist) : Option ℕ :=
  getPlaylistDepthAux all (all.length + 1) p.parentId

lemma sizeN_pos (n : XmlNode) : 1 ≤ sizeN n := by
  cases n; simp [sizeN]

/-- Structural invariant of the emitted playlist list: every element's
identity is the fresh identity of some counter in the consumed range, and
its parent reference is either the incoming parent identity or the
identity of an element of the same list generated strictly earlier. -/
def ForestInv (out : List Playlist) (pid : Option JStr) (c c' : ℕ) : Prop :=
  ∀ p ∈ out, ∃ k, c ≤ k ∧ k < c' ∧ p.id = genId k ∧
    (p.parentId = pid
      ∨ ∃ j, c ≤ j ∧ j < k ∧ p.parentId = some (genId j) ∧ ∃ q ∈ out, q.id = genId j)

lemma parseForestGo_spec : ∀ (N : ℕ) (f : XmlForest), sizeF f ≤ N →
    ∀ (pid : Option JStr) (c : ℕ),
    (parseForestGo f pid c).2 = c + sizeF f
    ∧ (parseForestGo f pid c).1.length = sizeF f
    ∧ ForestInv (parseForestGo f pid c).1 pid c (c + sizeF f)
    ∧ (∀ p ∈ (parseForestGo f pid c).1, p.type = "folder".data → p.tracks = []) := by
  intro N
  induction N with
  | zero =>
    intro f hf pid c
    cases f with
    | nil =>
      refine ⟨by simp [parseForestGo, sizeF], by simp [parseForestGo, sizeF], ?_, ?_⟩
      · intro p hp; exact absurd hp (by simp [parseForestGo])
      · intro p hp; exact absurd hp (by simp [parseForestGo])
    | cons n rest =>
      exfalso
      have := sizeN_pos n
      simp [sizeF] at hf
      omega
  | succ N ih =>
    intro f hf pid c
    cases f with
    | nil =>
      refine ⟨by simp [parseForestGo, sizeF], by simp [parseForestGo, sizeF], ?_, ?_⟩
      · intro p hp; exact absurd hp (by simp [parseForestGo])
      · intro p hp; exact absurd hp (by simp [parseForestGo])
    | cons n rest =>
      obtain ⟨nm, tm, te, cn, en, ch⟩ := n
      have hbound1 : sizeF ch ≤ N := by
        have := sizeN_pos (.mk nm tm te cn en ch)
        simp [sizeF, sizeN] at hf ⊢
        omega
      have hbound2 : sizeF rest ≤ N := by
        have := sizeN_pos (.mk nm tm te cn en ch)
        simp [sizeF, sizeN] at hf ⊢
        omega
      obtain ⟨csub, lsub, invsub, foldsub⟩ := ih ch hbound1 (some (genId c)) (c + 1)
      obtain ⟨crest, lrest, invrest, foldrest⟩ :=
        ih rest hbound2 pid ((parseForestGo ch (some (genId c)) (c + 1)).2)
      rw [csub] at crest lrest invrest foldrest
      have hgo : parseForestGo (.cons (.mk nm tm te cn en ch) rest) pid c
          = (nodeToPlaylist (.mk nm tm te cn en ch) (genId c) pid ::
              ((parseForestGo ch (some (genId c)) (c + 1)).1
                ++ (parseForestGo rest pid (c + 1 + sizeF ch)).1),
             (parseForestGo rest pid (c + 1 + sizeF ch)).2) := by
        rw [← csub]; rfl
      have hsz : sizeF (.cons (.mk nm tm te cn en ch) rest) = 1 + sizeF ch + sizeF rest := by
        simp [sizeF, sizeN]
      rw [hgo, hsz]
      refine ⟨?_, ?_, ?_, ?_⟩
      · rw [crest]; omega
      · simp only [List.length_cons, List.length_append, lsub, lrest]; omega
      · intro p hp
        rcases List.mem_cons.mp hp with rfl | hp'
        · refine ⟨c, le_refl c, by omega, rfl, Or.inl rfl⟩
        · rcases List.mem_append.mp hp' with hps | hpr
          · obtain ⟨k, hk1, hk2, hkid, hpar⟩ := invsub p hps
            refine ⟨k, by omega, by omega, hkid, ?_⟩
            rcases hpar with hpp | ⟨j, hj1, hj2, hjpar, q, hq, hqid⟩
            · right
              exact ⟨c, le_refl c, by omega, hpp,
                nodeToPlaylist (.mk nm tm te cn en ch) (genId c) pid,
                List.mem_cons_self _ _, rfl⟩
            · right
              exact ⟨j, by omega, hj2, hjpar, q,
                List.mem_cons_of_mem _ (List.mem_append_left _ hq), hqid⟩
          · obtain ⟨k, hk1, hk2, hkid, hpar⟩ := invrest p hpr
            refine ⟨k, by omega, by omega, hkid, ?_⟩
            rcases hpar with hpp | ⟨j, hj1, hj2, hjpar, q, hq, hqid⟩
            · exact Or.inl hpp
            · right
              exact ⟨j, by omega, hj2, hjpar, q,
                List.mem_cons_of_mem _ (List.mem_append_right _ hq), hqid⟩
      · intro p hp htype
        rcases List.mem_cons.mp hp with rfl | hp'
        · by_cases h0 : jsStr ((XmlNode.mk nm tm te cn en ch).typeMarker) = ['0']
          · simp [nodeToPlaylist, h0]
          · rw [show (nodeToPlaylist (.mk nm tm te cn en ch) (genId c) pid).type
                = "playlist".data by simp [nodeToPlaylist, h0]] at htype
            exact absurd htype (by decide)
        · rcases List.mem_append.mp hp' with hps | hpr
          · exact foldsub p hps htype
          · exact foldrest p hpr htype

lemma depthAux_some (out : List Playlist)
    (H : ∀ p ∈ out, ∃ k, p.id = genId k ∧
        ∀ pid, p.parentId = some pid →
          ∃ j, j < k ∧ pid = genId j ∧ ∃ q ∈ out, q.id = genId j) :
    ∀ fuel (cid : Option JStr),
      (cid = none ∨ ∃ j, j < fuel ∧ cid = some (genId j) ∧ ∃ q ∈ out, q.id = genId j) →
      (getPlaylistDepthAux out fuel cid).isSome := by
  intro fuel
  induction fuel with
  | zero =>
    intro cid h
    rcases h with rfl | ⟨j, hj, _, _⟩
    · simp [getPlaylistDepthAux]
    · omega
  | succ f ihf =>
    intro cid h
    rcases h with rfl | ⟨j, hj, rfl, q, hq, hqid⟩
    · simp [getPlaylistDepthAux]
    · have hfind : (out.find? (fun p => decide (p.id = genId j))).isSome :=
        List.find?_isSome.mpr ⟨q, hq, by simp [hqid]⟩
      obtain ⟨r, hr⟩ := Option.isSome_iff_exists.mp hfind
      have hrmem : r ∈ out := List.mem_of_find?_eq_some hr
      have hrid : r.id = genId j := by simpa using List.find?_some hr
      obtain ⟨k, hkid, hkpar⟩ := H r hrmem
      have hkj : k = j := genId_inj (hkid.symm.trans hrid)
      have hred : getPlaylistDepthAux out (f + 1) (some (genId j))
          = (getPlaylistDepthAux out f r.parentId).map (fun d => d + 1) := by
        simp [getPlaylistDepthAux, hr]
      rw [hred]
      have hrec : (getPlaylistDepthAux out f r.parentId).isSome := by
        rcases hpar : r.parentId with _ | pid'
        · simp [getPlaylistDepthAux]
        · obtain ⟨j', hj'k, hj'eq, hmem'⟩ := hkpar pid' hpar
          apply ihf
          right
          exact ⟨j', by omega, by rw [hj'eq], hmem'⟩
      obtain ⟨d, hd⟩ := Option.isSome_iff_exists.mp hrec
      simp [hd]

/-- Claim C7 (confirmed): on every Playlist Tree Builder output, each
present `parentId` is the identity of some playlist in the same result,
and the `getPlaylistDepth` parent walk finishes (the fuel bound
`length + 1` is never exhausted). -/
theorem playlist_parent_links_and_depth (root : Option XmlNode) :
    (∀ p ∈ parsePlaylists root, ∀ pid, p.parentId = some pid →
        ∃ q ∈ parsePlaylists root, q.id = pid)
    ∧ ∀ p ∈ parsePlaylists root, (getPlaylistDepth p (parsePlaylists root)).isSome := by
  cases root with
  | none =>
    constructor
    · intro p hp; exact absurd hp (by simp [parsePlaylists])
    · intro p hp; exact absurd hp (by simp [parsePlaylists])
  | some r =>
    obtain ⟨nm, tm, te, cn, en, ch⟩ := r
    obtain ⟨_hc, hlen, hinv, _⟩ := parseForestGo_spec (sizeF ch) ch (le_refl _) none 0
    have hout : parsePlaylists (some (.mk nm tm te cn en ch))
        = (parseForestGo ch none 0).1 := rfl
    rw [hout]
    have H : ∀ p ∈ (parseForestGo ch none 0).1, ∃ k, p.id = genId k ∧
        ∀ pid, p.parentId = some pid →
          ∃ j, j < k ∧ pid = genId j ∧ ∃ q ∈ (parseForestGo ch none 0).1, q.id = genId j := by
      intro p hp
      obtain ⟨k, _, _, hkid, hpar⟩ := hinv p hp
      refine ⟨k, hkid, ?_⟩
      intro pid hpid
      rcases hpar with hnone | ⟨j, _, hjk, hjeq, q, hq, hqid⟩
      · rw [hnone] at hpid; cases hpid
      · rw [hjeq] at hpid
        exact ⟨j, hjk, (Option.some.injEq _ _).mp hpid.symm, q, hq, hqid⟩
    constructor
    · intro p hp pid hpid
      obtain ⟨k, _, hkpar⟩ := H p hp
      obtain ⟨j, _, rfl, q, hq, hqid⟩ := hkpar pid hpid
      exact ⟨q, hq, hqid⟩
    · intro p hp
      obtain ⟨k, _, hk2, _, hpar⟩ := hinv p hp
      unfold getPlaylistDepth
      apply depthAux_some _ H
      rcases hpar with hnone | ⟨j, _, hjk, hjeq, q, hq, hqid⟩
      · exact Or.inl hnone
      · right
        refine ⟨j, ?_, hjeq, q, hq, hqid⟩
        rw [hlen]
        omega

/-- The scenario tree `Folder A { Folder B { Playlist C [refs "1","2"] } }`
under a `ROOT` node. -/
def nodeC : XmlNode :=
  XmlNode.mk (some "Playlist C".data) (some ['1']) (some ["1".data, "2".data]) none none .nil

def nodeB : XmlNode :=
  XmlNode.mk (some "Folder B".data) (some ['0']) none none none (.cons nodeC .nil)

def nodeA : XmlNode :=
  XmlNode.mk (some "Folder A".data) (some ['0']) none none none (.cons nodeB .nil)

def rootN : XmlNode :=
  XmlNode.mk (some "ROOT".data) (some ['0']) none none none (.cons nodeA .nil)

def plA : Playlist := ⟨genId 0, "Folder A".data, "folder".data, none, [], Sum.inr 0⟩

def plB : Playlist := ⟨genId 1, "Folder B".data, "folder".data, some (genId 0), [], Sum.inr 0⟩

def plC : Playlist :=
  ⟨genId 2, "Playlist C".data, "playlist".data, some (genId 1),
    ["1".data, "2".data], Sum.inr 0⟩

/-- Claim C6 (confirmed): the Playlist Tree Builder emits exactly the
proper descendants of the root (pre-order, root not emitted), extracts
membership lists only for playlist-kind nodes (folders always carry an
empty list), and on the scenario tree
`Folder A { Folder B { Playlist C [refs "1","2"] } }` yields exactly three
records, in the order A, B, C, with `B.parentId = A.id`,
`C.parentId = B.id`, `C.tracks = ["1","2"]`, and no parent for A. -/
theorem playlist_tree_builder_correct :
    (∀ root : XmlNode, (parsePlaylists (some root)).length = sizeF root.children)
    ∧ (∀ root : Option XmlNode, ∀ p ∈ parsePlaylists root,
        p.type = "folder".data → p.tracks = [])
    ∧ (parsePlaylists (some rootN) = [plA, plB, plC]
        ∧ plA.parentId = none ∧ plB.parentId = some plA.id ∧ plC.parentId = some plB.id
        ∧ plC.tracks = ["1".data, "2".data]
        ∧ plA.type = "folder".data ∧ plB.type = "folder".data
        ∧ plC.type = "playlist".data) := by
  refine ⟨?_, ?_, ?_⟩
  · intro root
    obtain ⟨nm, tm, te, cn, en, ch⟩ := root
    exact (parseForestGo_spec (sizeF ch) ch (le_refl _) none 0).2.1
  · intro root p hp htype
    cases root with
    | none => exact absurd hp (by simp [parsePlaylists])
    | some r =>
      obtain ⟨nm, tm, te, cn, en, ch⟩ := r
      exact (parseForestGo_spec (sizeF ch) ch (le_refl _) none 0).2.2.2 p hp htype
  · exact ⟨by decide, rfl, rfl, rfl, rfl, rfl, rfl, rfl⟩

/-- Witness for the conditional parts of `playlist_tree_builder_correct`:
the folder record B of the scenario run indeed carries no tracks. -/
theorem playlist_tree_builder_correct_witness : plB.tracks = [] :=
  playlist_tree_builder_correct.2.1 (some rootN) plB (by decide) (by decide)

/-- Witness for `playlist_parent_links_and_depth`: on the scenario output,
C's parent reference resolves in the result and the depth walk finishes. -/
theorem playlist_parent_links_and_depth_witness :
    (∃ q ∈ parsePlaylists (some rootN), q.id = genId 1)
    ∧ (getPlaylistDepth plC (parsePlaylists (some rootN))).isSome :=
  ⟨(playlist_parent_links_and_depth (some rootN)).1 plC (by decide) (genId 1) (by decide),
   (playlist_parent_links_and_depth (some rootN)).2 plC (by decide)⟩

/-! ### Track Normalizer (`src/lib/parser.ts`) -/

/-- Value of a digit string in base 10. -/
def digitsToNat (ds : JStr) : ℕ := ds.foldl (fun a c => 10 * a + (c.toNat - '0'.toNat)) 0

/-- JS `parseInt(s)` at radix 10: skip leading whitespace, optional sign,
longest decimal-digit run; `NaN` (`none`) when no digit follows.  (The
automatic hexadecimal mode for `0x` inputs is not modelled; no claim
involves such inputs.) -/
def jsParseInt (s : JStr) : JsNum :=
  let s1 := s.dropWhile Char.isWhitespace
  let neg := s1.head? = some '-'
  let s2 := if s1.head? = some '-' ∨ s1.head? = some '+' then s1.tail else s1
  let digits := s2.takeWhile Char.isDigit
  if digits.isEmpty then none
  else some (((if neg then -1 else 1) * (digitsToNat digits : ℤ) : ℤ) : ℚ)

/-- JS `parseFloat(s)`: skip leading whitespace, optional sign, decimal
digits with an optional fractional part; `NaN` when no digit is found.
(Exponent notation is not modelled; no claim involves such inputs.) -/
def jsParseFloat (s : JStr) : JsNum :=
  let s1 := s.dropWhile Char.isWhitespace
  let neg := s1.head? = some '-'
  let s2 := if s1.head? = some '-' ∨ s1.head? = some '+' then s1.tail else s1
  let intPart := s2.takeWhile Char.isDigit
  let rest := s2.dropWhile Char.isDigit
  match rest with
  | '.' :: r2 =>
    let frac := r2.takeWhile Char.isDigit
    if intPart.isEmpty && frac.isEmpty then none
    else some ((if neg then -1 else 1)
      * ((digitsToNat intPart : ℚ) + (digitsToNat frac : ℚ) / (10 ^ frac.length)))
  | _ =>
    if intPart.isEmpty then none
    else some ((if neg then -1 else 1) * (digitsToNat intPart : ℚ))

/-- The host `new Date(string)` constructor, modelled on the ISO
`YYYY-MM-DD` date-only strings the source format uses; every other string
yields an Invalid Date.  The time value is an order-preserving encoding of
the date (no claim depends on the epoch scale). -/
def jsNewDate (s : JStr) : JsDate :=
  match s with
  | [y1, y2, y3, y4, '-', m1, m2, '-', d1, d2] =>
    if ([y1, y2, y3, y4, m1, m2, d1, d2].all Char.isDigit) then
      let m := digitsToNat [m1, m2]
      let d := digitsToNat [d1, d2]
      if 1 ≤ m ∧ m ≤ 12 ∧ 1 ≤ d ∧ d ≤ 31 then
        some ((digitsToNat [y1, y2, y3, y4] : ℤ) * 10000 + m * 100 + d)
      else none
    else none
  | _ => none

/-- `new Date()` at the (unspecified) parse instant, determinized; the
claims do not depend on its value, only on its validity. -/
def dateNow : JsDate := some 0

/-- A raw `TRACK` element: every attribute is a raw string
(`parseAttributeValue: false`) or structurally absent. -/
structure RawTrack where
  TrackID : Option JStr
  Name : Option JStr
  Artist : Option JStr
  Album : Option JStr
  Genre : Option JStr
  AverageBpm : Option JStr
  TotalTime : Option JStr
  DateAdded : Option JStr
  Tonality : Option JStr
  PlayCount : Option JStr
  Rating : Option JStr
  Location : Option JStr
  TrackNumber : Option JStr
  Year : Option JStr
  Comments : Option JStr
  BitRate : Option JStr
  SampleRate : Option JStr
  Label : Option JStr
  Remixer : Option JStr
  Composer : Option JStr
  Grouping : Option JStr
deriving Repr, DecidableEq

/-- JS `x || d` for strings. -/
def strOrDefault (x : Option JStr) (d : JStr) : JStr := if strTruthy x then jsStr x else d

/-- JS `x || undefined` for strings. -/
def strOrNone (x : Option JStr) : Option JStr := if strTruthy x then x else none

/-- The bpm coercion of `parseTrack`: `AverageBpm` truthy, parsed as float,
kept only when neither `NaN` nor `≤ 0`. -/
def coerceBpm (x : Option JStr) : Option JsNum :=
  if strTruthy x then
    match jsParseFloat (jsStr x) with
    | some q => if 0 < q then some (some q) else none
    | none => none
  else none

/-- The duration coercion of `parseTrack`: `TotalTime` parsed as integer
(`0` when the field is falsy), negative or `NaN` values replaced by `0`. -/
def coerceDuration (x : Option JStr) : JsNum :=
  let v := if strTruthy x then jsParseInt (jsStr x) else some 0
  match v with
  | some q => if 0 ≤ q then some q else some 0
  | none => some 0

/-- The date coercion of `parseTrack`: parse `DateAdded` when truthy,
falling back to the current time when absent or invalid. -/
def coerceDate (x : Option JStr) : JsDate :=
  let d := if strTruthy x then jsNewDate (jsStr x) else dateNow
  match d with
  | none => dateNow
  | some t => some t

/-- The year coercion of `parseTrack`: parsed integer kept only in
`[1900, 2100]` (`NaN` is falsy and dropped). -/
def coerceYear (x : Option JStr) : Option JsNum :=
  if strTruthy x then
    match jsParseInt (jsStr x) with
    | some q => if 1900 ≤ q ∧ q ≤ 2100 then some (some q) else none
    | none => none
  else none

/-- The rating coercion of `parseTrack`: parsed integer kept only in
`[0, 5]` (`NaN` fails the `>= 0` comparison and is dropped). -/
def coerceRating (x : Option JStr) : Option JsNum :=
  if strTruthy x then
    match jsParseInt (jsStr x) with
    | some q => if 0 ≤ q ∧ q ≤ 5 then some (some q) else none
    | none => none
  else none

/-- The unguarded integer fields of `parseTrack` (`PlayCount`,
`TrackNumber`, `BitRate`, `SampleRate`): `parseInt` when truthy, with no
`NaN` or bound check. -/
def coerceRawInt (x : Option JStr) : Option JsNum :=
  if strTruthy x then some (jsParseInt (jsStr x)) else none

/-- `parseTrack` of `src/lib/parser.ts`.  A total function: no coercion
site can throw (`String`, `parseInt`, `parseFloat`, `new Date`, `||` are
all total), so the normalizer returns a `Track` for every raw element —
including one whose `TrackID` is structurally absent, for which
`String(undefined)` degrades the identity to the string `"undefined"`. -/
def parseTrack (raw : RawTrack) : Track where
  id := jsStr raw.TrackID
  title := strOrDefault raw.Name "Unknown".data
  artist := strOrDefault raw.Artist "Unknown".data
  album := strOrNone raw.Album
  genre := parseGenres raw.Genre
  bpm := coerceBpm raw.AverageBpm
  key := strOrNone raw.Tonality
  rating := coerceRating raw.Rating
  playCount := coerceRawInt raw.PlayCount
  duration := coerceDuration raw.TotalTime
  dateAdded := coerceDate raw.DateAdded
  location := strOrDefault raw.Location []
  trackNumber := coerceRawInt raw.TrackNumber
  year := coerceYear raw.Year
  comments := strOrNone raw.Comments
  tonality := strOrNone raw.Tonality
  bitRate := coerceRawInt raw.BitRate
  sampleRate := coerceRawInt raw.SampleRate
  label := strOrNone raw.Label
  remixer := strOrNone raw.Remixer
  composer := strOrNone raw.Composer
  grouping := strOrNone raw.Grouping

/-- A raw track element with every attribute structurally absent. -/
def emptyRaw : RawTrack :=
  ⟨none, none, none, none, none, none, none, none, none, none, none,
   none, none, none, none, none, none, none, none, none, none⟩

/-! ### Schema Validator (`src/lib/schemas.ts`, Zod) -/

/-- Whether an `Except` result is a success. -/
def exceptIsOk {α : Type} : Except String α → Bool
  | .ok _ => true
  | .error _ => false

instance {ε α : Type} [DecidableEq ε] [DecidableEq α] : DecidableEq (Except ε α) :=
  fun a b =>
    match a, b with
    | .ok x, .ok y =>
      if h : x = y then isTrue (by rw [h])
      else isFalse (by intro hh; cases hh; exact h rfl)
    | .ok _, .error _ => isFalse (by intro h; cases h)
    | .error _, .ok _ => isFalse (by intro h; cases h)
    | .error e, .error f =>
      if h : e = f then isTrue (by rw [h])
      else isFalse (by intro hh; cases hh; exact h rfl)

/-- Input universe of `trackSchema`: the TypeScript input type of the
schema.  Numbers may be `NaN` (`some none`); `dateAdded` accepts a string
or a `Date` (the two branches of the `dateSchema` union). -/
structure TrackInput where
  id : JStr
  title : Option JStr
  artist : Option JStr
  album : Option JStr
  genre : Option (List JStr)
  bpm : Option JsNum
  key : Option JStr
  rating : Option JsNum
  playCount : Option JsNum
  duration : JsNum
  dateAdded : Sum JStr JsDate
  location : JStr
  trackNumber : Option JsNum
  year : Option JsNum
  comments : Option JStr
  tonality : Option JStr
  bitRate : Option JsNum
  sampleRate : Option JsNum
  label : Option JStr
  remixer : Option JStr
  composer : Option JStr
  grouping : Option JStr
deriving Repr, DecidableEq

/-- Output of `trackSchema`: numbers are genuine (`z.number()` rejects
`NaN`) but `dateAdded` may still be an Invalid Date, because the string
branch of `dateSchema` transforms without a validity check. -/
structure VTrack where
  id : JStr
  title : JStr
  artist : JStr
  album : Option JStr
  genre : Option (List JStr)
  bpm : Option ℚ
  key : Option JStr
  rating : Option ℚ
  playCount : Option ℚ
  duration : ℚ
  dateAdded : JsDate
  location : JStr
  trackNumber : Option ℚ
  year : Option ℚ
  comments : Option JStr
  tonality : Option JStr
  bitRate : Option ℚ
  sampleRate : Option ℚ
  label : Option JStr
  remixer : Option JStr
  composer : Option JStr
  grouping : Option JStr
deriving Repr, DecidableEq

/-- `emptyStringToUndefined`: `z.string().optional().transform` mapping
`''` and `undefined` to `undefined`. -/
def zEmptyToNone (x : Option JStr) : Except String (Option JStr) :=
  .ok (match x with
       | none => none
       | some s => if s.isEmpty then none else some s)

/-- `dateSchema = z.union([z.string().transform(new Date), z.date()])`:
a string is transformed with no validity check (an unparseable string
becomes an Invalid Date and still succeeds); a `Date` value must be valid
(`z.date()` rejects an Invalid Date with `invalid_date`). -/
def zDate (x : Sum JStr JsDate) : Except String JsDate :=
  match x with
  | .inl s => .ok (jsNewDate s)
  | .inr none => .error "invalid_date"
  | .inr (some t) => .ok (some t)

/-- `z.number().positive().optional()` (bpm, sampleRate): `NaN` fails with
`invalid_type`, non-positive values fail `positive`. -/
def zPosNumberOpt (x : Option JsNum) : Except String (Option ℚ) :=
  match x with
  | none => .ok none
  | some none => .error "invalid_type: nan"
  | some (some q) => if 0 < q then .ok (some q) else .error "too_small: positive"

/-- `z.number().int().min(0).max(5).optional()` (rating). -/
def zRating (x : Option JsNum) : Except String (Option ℚ) :=
  match x with
  | none => .ok none
  | some none => .error "invalid_type: nan"
  | some (some q) =>
    if q.den = 1 ∧ 0 ≤ q ∧ q ≤ 5 then .ok (some q) else .error "rating bounds"

/-- `z.number().int().min(0).optional()` (playCount). -/
def zPlayCount (x : Option JsNum) : Except String (Option ℚ) :=
  match x with
  | none => .ok none
  | some none => .error "invalid_type: nan"
  | some (some q) => if q.den = 1 ∧ 0 ≤ q then .ok (some q) else .error "playCount bounds"

/-- `z.number().min(0)` (duration, required). -/
def zDuration (x : JsNum) : Except String ℚ :=
  match x with
  | none => .error "invalid_type: nan"
  | some q => if 0 ≤ q then .ok q else .error "too_small: min 0"

/-- `trackNumber`: `z.number().int().optional().transform` turning
`undefined` and values `≤ 0` into `undefined`; `NaN` is rejected before the
transform runs. -/
def zTrackNumber (x : Option JsNum) : Except String (Option ℚ) :=
  match x with
  | none => .ok none
  | some none => .error "invalid_type: nan"
  | some (some q) =>
    if q.den = 1 then .ok (if q ≤ 0 then none else some q) else .error "not int"

/-- `year`: `z.number().int().optional().transform` turning `undefined`
and values outside `[1900, 2100]` into `undefined`. -/
def zYear (x : Option JsNum) : Except String (Option ℚ) :=
  match x with
  | none => .ok none
  | some none => .error "invalid_type: nan"
  | some (some q) =>
    if q.den = 1 then .ok (if q < 1900 ∨ 2100 < q then none else some q)
    else .error "not int"

/-- `bitRate`: `z.number().optional().transform` turning `undefined` and
values `≤ 0` into `undefined` (no integrality check). -/
def zBitRate (x : Option JsNum) : Except String (Option ℚ) :=
  match x with
  | none => .ok none
  | some none => .error "invalid_type: nan"
  | some (some q) => .ok (if q ≤ 0 then none else some q)

/-- `trackSchema.parse`, field by field; `Except` short-circuits where Zod
aggregates issues, which preserves the success/failure status. -/
def validateTrack (t : TrackInput) : Except String VTrack := do
  let bpm ← zPosNumberOpt t.bpm
  let rating ← zRating t.rating
  let playCount ← zPlayCount t.playCount
  let duration ← zDuration t.duration
  let dateAdded ← zDate t.dateAdded
  let trackNumber ← zTrackNumber t.trackNumber
  let year ← zYear t.year
  let bitRate ← zBitRate t.bitRate
  let sampleRate ← zPosNumberOpt t.sampleRate
  let album ← zEmptyToNone t.album
  let key ← zEmptyToNone t.key
  let comments ← zEmptyToNone t.comments
  let tonality ← zEmptyToNone t.tonality
  let label ← zEmptyToNone t.label
  let remixer ← zEmptyToNone t.remixer
  let composer ← zEmptyToNone t.composer
  let grouping ← zEmptyToNone t.grouping
  .ok { id := t.id
        title := t.title.getD "Unknown".data
        artist := t.artist.getD "Unknown".data
        album := album
        genre := t.genre
        bpm := bpm
        key := key
        rating := rating
        playCount := playCount
        duration := duration
        dateAdded := dateAdded
        location := t.location
        trackNumber := trackNumber
        year := year
        comments := comments
        tonality := tonality
        bitRate := bitRate
        sampleRate := sampleRate
        label := label
        remixer := remixer
        composer := composer
        grouping := grouping }

/-- Input universe of `playlistSchema`: `count` may be a number (possibly
`NaN`) or a string. -/
structure PlaylistInput where
  id : JStr
  name : JStr
  tracks : List JStr
  parentId : Option JStr
  type : JStr
  count : Option (Sum JsNum JStr)
deriving Repr, DecidableEq

/-- Output of `playlistSchema`. -/
structure VPlaylist where
  id : JStr
  name : JStr
  tracks : List JStr
  parentId : Option JStr
  type : JStr
  count : Option ℚ
deriving Repr, DecidableEq

/-- `z.enum(['folder', 'playlist'])`. -/
def zPlaylistType (s : JStr) : Except String JStr :=
  if s = "folder".data ∨ s = "playlist".data then .ok s else .error "invalid_enum_value"

/-- `count`: `z.union([z.number(), z.string()]).transform(...).optional()`;
a string is `parseInt`-ed, and a negative or `NaN` result becomes
`undefined`; a `NaN` number input fails both union branches. -/
def zCount (x : Option (Sum JsNum JStr)) : Except String (Option ℚ) :=
  match x with
  | none => .ok none
  | some (.inl none) => .error "invalid_union"
  | some (.inl (some q)) => .ok (if 0 ≤ q then some q else none)
  | some (.inr s) =>
    .ok (match jsParseInt s with
         | none => none
         | some q => if 0 ≤ q then some q else none)

/-- `playlistSchema.parse`. -/
def validatePlaylist (p : PlaylistInput) : Except String VPlaylist := do
  let typ ← zPlaylistType p.type
  let count ← zCount p.count
  .ok { id := p.id, name := p.name, tracks := p.tracks, parentId := p.parentId,
        type := typ, count := count }

/-- Input universe of `metadataSchema`. -/
structure MetadataInput where
  version : JStr
  company : JStr
  totalTracks : Sum JsNum JStr
  parsedAt : Sum JStr JsDate
  fileName : Option JStr
  fileSize : Option JsNum
deriving Repr, DecidableEq

/-- Output of `metadataSchema`. -/
structure VMetadata where
  version : JStr
  company : JStr
  totalTracks : ℚ
  parsedAt : JsDate
  fileName : Option JStr
  fileSize : Option ℚ
deriving Repr, DecidableEq

/-- `totalTracks`: union of number and string with a transform defaulting
negative or unparseable values to `0`. -/
def zTotalTracks (x : Sum JsNum JStr) : Except String ℚ :=
  match x with
  | .inl none => .error "invalid_union"
  | .inl (some q) => .ok (if 0 ≤ q then q else 0)
  | .inr s =>
    .ok (match jsParseInt s with
         | none => 0
         | some q => if 0 ≤ q then q else 0)

/-- `fileSize`: `z.number().int().positive().optional()`. -/
def zFileSize (x : Option JsNum) : Except String (Option ℚ) :=
  match x with
  | none => .ok none
  | some none => .error "invalid_type: nan"
  | some (some q) =>
    if q.den = 1 ∧ 0 < q then .ok (some q) else .error "fileSize bounds"

/-- `metadataSchema.parse`. -/
def validateMetadata (m : MetadataInput) : Except String VMetadata := do
  let totalTracks ← zTotalTracks m.totalTracks
  let parsedAt ← zDate m.parsedAt
  let fileSize ← zFileSize m.fileSize
  .ok { version := m.version, company := m.company, totalTracks := totalTracks,
        parsedAt := parsedAt, fileName := m.fileName, fileSize := fileSize }

/-- Input universe of `librarySchema`. -/
structure LibraryInput where
  tracks : List TrackInput
  playlists : List PlaylistInput
  metadata : MetadataInput
deriving Repr, DecidableEq

/-- Output of `librarySchema`. -/
structure VLibrary where
  tracks : List VTrack
  playlists : List VPlaylist
  metadata : VMetadata
deriving Repr, DecidableEq

/-- `z.array(s)`: validate every element, fail when any element fails. -/
def exceptMapList {α β : Type} (f : α → Except String β) : List α → Except String (List β)
  | [] => .ok []
  | a :: rest => do
    let b ← f a
    let bs ← exceptMapList f rest
    .ok (b :: bs)

/-- `validateLibrary` of `src/lib/schemas.ts`: `librarySchema.parse`. -/
def validateLibrary (l : LibraryInput) : Except String VLibrary := do
  let tracks ← exceptMapList validateTrack l.tracks
  let playlists ← exceptMapList validatePlaylist l.playlists
  let metadata ← validateMetadata l.metadata
  .ok { tracks := tracks, playlists := playlists, metadata := metadata }

/-- A validated track re-read as a candidate input (the JS value a
validated `Track` is when handed back to `validateLibrary`). -/
def vtrackToInput (v : VTrack) : TrackInput where
  id := v.id
  title := some v.title
  artist := some v.artist
  album := v.album
  genre := v.genre
  bpm := v.bpm.map some
  key := v.key
  rating := v.rating.map some
  playCount := v.playCount.map some
  duration := some v.duration
  dateAdded := .inr v.dateAdded
  location := v.location
  trackNumber := v.trackNumber.map some
  year := v.year.map some
  comments := v.comments
  tonality := v.tonality
  bitRate := v.bitRate.map some
  sampleRate := v.sampleRate.map some
  label := v.label
  remixer := v.remixer
  composer := v.composer
  grouping := v.grouping

/-- A validated playlist re-read as a candidate input. -/
def vplaylistToInput (v : VPlaylist) : PlaylistInput where
  id := v.id
  name := v.name
  tracks := v.tracks
  parentId := v.parentId
  type := v.type
  count := v.count.map (fun q => .inl (some q))

/-- Validated metadata re-read as a candidate input. -/
def vmetadataToInput (v : VMetadata) : MetadataInput where
  version := v.version
  company := v.company
  totalTracks := .inl (some v.totalTracks)
  parsedAt := .inr v.parsedAt
  fileName := v.fileName
  fileSize := v.fileSize.map some

/-- A validated library re-read as a candidate input. -/
def vlibraryToInput (v : VLibrary) : LibraryInput where
  tracks := v.tracks.map vtrackToInput
  playlists := v.playlists.map vplaylistToInput
  metadata := vmetadataToInput v.metadata

/-- A normalizer output re-read as a validator input (the value
`parseRekordboxXml` hands to `validateLibrary`). -/
def trackToInput (t : Track) : TrackInput where
  id := t.id
  title := some t.title
  artist := some t.artist
  album := t.album
  genre := t.genre
  bpm := t.bpm
  key := t.key
  rating := t.rating
  playCount := t.playCount
  duration := t.duration
  dateAdded := .inr t.dateAdded
  location := t.location
  trackNumber := t.trackNumber
  year := t.year
  comments := t.comments
  tonality := t.tonality
  bitRate := t.bitRate
  sampleRate := t.sampleRate
  label := t.label
  remixer := t.remixer
  composer := t.composer
  grouping := t.grouping

/-! ### Claims about the normalizer and the validator -/

lemma coerceBpm_cases (x : Option JStr) :
    coerceBpm x = none ∨ ∃ q : ℚ, coerceBpm x = some (some q) ∧ 0 < q := by
  unfold coerceBpm
  by_cases h : strTruthy x
  · cases hp : jsParseFloat (jsStr x) with
    | none => simp [h, hp]
    | some q =>
      by_cases hq : 0 < q
      · right; exact ⟨q, by simp [h, hp, hq], hq⟩
      · left; simp [h, hp, hq]
  · simp [h]

lemma coerceRating_cases (x : Option JStr) :
    coerceRating x = none ∨ ∃ q : ℚ, coerceRating x = some (some q) ∧ 0 ≤ q ∧ q ≤ 5 := by
  unfold coerceRating
  by_cases h : strTruthy x
  · cases hp : jsParseInt (jsStr x) with
    | none => simp [h, hp]
    | some q =>
      by_cases hq : 0 ≤ q ∧ q ≤ 5
      · right; exact ⟨q, by simp [h, hp, hq], hq⟩
      · left; simp [h, hp, hq]
  · simp [h]

lemma coerceYear_cases (x : Option JStr) :
    coerceYear x = none ∨ ∃ q : ℚ, coerceYear x = some (some q) ∧ 1900 ≤ q ∧ q ≤ 2100 := by
  unfold coerceYear
  by_cases h : strTruthy x
  · cases hp : jsParseInt (jsStr x) with
    | none => simp [h, hp]
    | some q =>
      by_cases hq : 1900 ≤ q ∧ q ≤ 2100
      · right; exact ⟨q, by simp [h, hp, hq], hq⟩
      · left; simp [h, hp, hq]
  · simp [h]

lemma coerceDuration_cases (x : Option JStr) :
    ∃ q : ℚ, coerceDuration x = some q ∧ 0 ≤ q := by
  unfold coerceDuration
  by_cases h : strTruthy x
  · cases hp : jsParseInt (jsStr x) with
    | none => exact ⟨0, by simp [h, hp], le_refl 0⟩
    | some q =>
      by_cases hq : 0 ≤ q
      · exact ⟨q, by simp [h, hp, hq], hq⟩
      · exact ⟨0, by simp [h, hp, hq], le_refl 0⟩
  · exact ⟨0, by simp [h], le_refl 0⟩

lemma coerceDate_isSome (x : Option JStr) : (coerceDate x).isSome := by
  unfold coerceDate
  by_cases h : strTruthy x
  · cases hp : jsNewDate (jsStr x) with
    | none => simp [h, hp, dateNow]
    | some t => simp [h, hp]
  · simp [h, dateNow]

lemma parseGenres_cases (x : Option JStr) :
    parseGenres x = none ∨ ∃ gs, parseGenres x = some gs ∧ gs ≠ [] := by
  match x with
  | none => exact Or.inl rfl
  | some s =>
    unfold parseGenres
    by_cases h1 : (s.isEmpty || (jsTrim s).isEmpty) = true
    · simp [h1]
    · rcases hgs : ((splitSemi s).map jsTrim).filter (fun g => decide (g.length > 0))
        with _ | ⟨a, l⟩
      · simp [h1, hgs]
      · right
        refine ⟨a :: l, ?_, by simp⟩
        simp [h1, hgs]

/-- The content of claim C2, as amended: the Track Normalizer is total. -/
def ParseTrackSpec (raw : RawTrack) : Prop :=
  (parseTrack raw).id = jsStr raw.TrackID
  ∧ (raw.TrackID = none → (parseTrack raw).id = "undefined".data)
  ∧ ((parseTrack raw).bpm = none ∨ ∃ q : ℚ, (parseTrack raw).bpm = some (some q) ∧ 0 < q)
  ∧ ((parseTrack raw).rating = none
      ∨ ∃ q : ℚ, (parseTrack raw).rating = some (some q) ∧ 0 ≤ q ∧ q ≤ 5)
  ∧ ((parseTrack raw).year = none
      ∨ ∃ q : ℚ, (parseTrack raw).year = some (some q) ∧ 1900 ≤ q ∧ q ≤ 2100)
  ∧ (∃ q : ℚ, (parseTrack raw).duration = some q ∧ 0 ≤ q)
  ∧ (parseTrack raw).dateAdded.isSome
  ∧ ((parseTrack raw).title = jsStr raw.Name ∨ (parseTrack raw).title = "Unknown".data)
  ∧ ((parseTrack raw).genre = none ∨ ∃ gs, (parseTrack raw).genre = some gs ∧ gs ≠ [])

/-- Claim C2 (corrected): the Track Normalizer returns a `Track` for every
raw element — each malformed field degrades to its default within the
stated invariants — and structural absence of `TrackID` is not fatal
either: the identity degrades to the string `"undefined"`. -/
theorem parseTrack_never_fails (raw : RawTrack) : ParseTrackSpec raw := by
  refine ⟨rfl, ?_, coerceBpm_cases _, coerceRating_cases _, coerceYear_cases _,
    coerceDuration_cases _, coerceDate_isSome _, ?_, parseGenres_cases _⟩
  · intro h
    show jsStr raw.TrackID = "undefined".data
    rw [h]
    rfl
  · show strOrDefault raw.Name "Unknown".data = jsStr raw.Name
      ∨ strOrDefault raw.Name "Unknown".data = "Unknown".data
    unfold strOrDefault
    by_cases h : strTruthy raw.Name
    · exact Or.inl (by simp [h])
    · exact Or.inr (by simp [h])

/-- Witness for `parseTrack_never_fails` at a concrete input. -/
theorem parseTrack_never_fails_witness : ParseTrackSpec emptyRaw :=
  parseTrack_never_fails emptyRaw

/-- Claim C2, counterexample to the claim as stated: on a raw element whose
`TrackID` is structurally absent the normalizer does not fail — it returns
a `Track` whose id is the string `"undefined"`, and even the Schema
Validator accepts that track. -/
theorem parseTrack_missing_id_not_fatal :
    emptyRaw.TrackID = none
    ∧ (parseTrack emptyRaw).id = "undefined".data
    ∧ exceptIsOk (validateTrack (trackToInput (parseTrack emptyRaw))) = true := by
  refine ⟨rfl, rfl, by decide⟩

/-- A raw track element with a given `TrackNumber` attribute. -/
def rawWithTN (s : JStr) : RawTrack := { emptyRaw with TrackID := some ['1'], TrackNumber := some s }

/-- A raw track element with a given `BitRate` attribute. -/
def rawWithBR (s : JStr) : RawTrack := { emptyRaw with TrackID := some ['1'], BitRate := some s }

/-- Claim C4 (code_bug): a parsable positive `TrackNumber` survives
normalization and validation, and a non-positive one is coerced to absent,
as claimed; but an unparseable one (`"abc"`) becomes `NaN` in the
normalizer, and Zod's `z.number()` rejects `NaN`, so validation of the
track fails instead of the field becoming absent — likewise for
`BitRate`. -/
theorem trackNumber_unparseable_rejected :
    ((validateTrack (trackToInput (parseTrack (rawWithTN "7".data)))).map
        (fun v => v.trackNumber) = .ok (some 7))
    ∧ ((validateTrack (trackToInput (parseTrack (rawWithTN "0".data)))).map
        (fun v => v.trackNumber) = .ok none)
    ∧ ((validateTrack (trackToInput (parseTrack (rawWithTN "-3".data)))).map
        (fun v => v.trackNumber) = .ok none)
    ∧ (parseTrack (rawWithTN "abc".data)).trackNumber = some none
    ∧ exceptIsOk (validateTrack (trackToInput (parseTrack (rawWithTN "abc".data)))) = false
    ∧ (parseTrack (rawWithBR "abc".data)).bitRate = some none
    ∧ exceptIsOk (validateTrack (trackToInput (parseTrack (rawWithBR "abc".data)))) = false := by
  refine ⟨by decide, by decide, by decide, by decide, by decide, by decide, by decide⟩

/-- Benign metadata accepted by the validator. -/
def benignMeta : MetadataInput := ⟨"v".data, "c".data, .inl (some 0), .inr (some 0), none, none⟩

/-- A candidate track whose `dateAdded` is an unparseable date string. -/
def badDateTrack : TrackInput :=
  ⟨"1".data, none, none, none, none, none, none, none, none, some 0, .inl "garbage".data, [],
   none, none, none, none, none, none, none, none, none, none⟩

/-- A candidate library the validator accepts although its output carries
an Invalid Date. -/
def badLib : LibraryInput := ⟨[badDateTrack], [], benignMeta⟩

/-- Whether revalidating `validateLibrary`'s own output at `l` reproduces
it (vacuously true when `l` is rejected). -/
def idempotentRevalidation (l : LibraryInput) : Bool :=
  match validateLibrary l with
  | .error _ => true
  | .ok v => decide (validateLibrary (vlibraryToInput v) = .ok v)

/-- Claim C5 (code_bug): the Schema Validator is not idempotent.  The
string branch of `dateSchema` transforms an unparseable date string into
an Invalid Date with no check, so `validateLibrary` accepts `badLib`; on
the second pass the produced `Date` hits `z.date()`, which rejects an
Invalid Date, so revalidating the validator's own output fails instead of
being a no-op. -/
theorem validateLibrary_not_idempotent :
    exceptIsOk (validateLibrary badLib) = true
    ∧ idempotentRevalidation badLib = false := by
  refine ⟨by decide, by decide⟩

/-! ### Parse worker (`src/workers/parse-worker.ts`, `src/lib/constants.ts`) -/

/-- One named progress stage: a percentage and a human-readable label. -/
structure Stage where
  percent : ℕ
  message : JStr
deriving Repr, DecidableEq

/-- The record type of the `PROGRESS_STAGES` constant. -/
structure ProgressStages where
  FILE_READ : Stage
  XML_PARSED : Stage
  TRACKS_PARSED : Stage
  PLAYLISTS_PARSED : Stage
  VALIDATION_COMPLETE : Stage
deriving Repr, DecidableEq

/-- `PROGRESS_STAGES` of `src/lib/constants.ts` — five stages are defined,
including the 90% playlist stage. -/
def PROGRESS_STAGES : ProgressStages :=
  ⟨⟨10, "Reading file...".data⟩,
   ⟨40, "Parsing XML...".data⟩,
   ⟨70, "Processing tracks...".data⟩,
   ⟨90, "Processing playlists...".data⟩,
   ⟨100, "Complete!".data⟩⟩

/-- The worker-to-main messages: progress, success (carrying the validated
library), error. -/
inductive WorkerMsg where
  | progress (percent : ℕ) (message : JStr)
  | success (library : VLibrary)
  | error (e : JStr)
deriving Repr, DecidableEq

/-- The `message` handler of `src/workers/parse-worker.ts`, as the sequence
of messages it posts.  `readRes` is the outcome of the host `file.text()`
call and `parsed` the outcome of `parseRekordboxXml` (the XML decode is an
external collaborator); any failure is caught and posted as one error
message.  The handler posts `FILE_READ` (10), `XML_PARSED` (40),
`TRACKS_PARSED` (70) and, after validation, `VALIDATION_COMPLETE` (100)
followed by the success message — it never posts `PLAYLISTS_PARSED`. -/
def workerRun (readRes : Except JStr Unit) (parsed : Except JStr LibraryInput) :
    List WorkerMsg :=
  WorkerMsg.progress PROGRESS_STAGES.FILE_READ.percent PROGRESS_STAGES.FILE_READ.message
  :: match readRes with
     | .error e => [.error e]
     | .ok _ =>
       WorkerMsg.progress PROGRESS_STAGES.XML_PARSED.percent PROGRESS_STAGES.XML_PARSED.message
       :: match parsed with
          | .error e => [.error e]
          | .ok lib =>
            WorkerMsg.progress PROGRESS_STAGES.TRACKS_PARSED.percent
              PROGRESS_STAGES.TRACKS_PARSED.message
            :: match validateLibrary lib with
               | .error e => [.error e.data]
               | .ok v =>
                 [WorkerMsg.progress PROGRESS_STAGES.VALIDATION_COMPLETE.percent
                    PROGRESS_STAGES.VALIDATION_COMPLETE.message,
                  .success v]

/-- The percentages of the progress notifications of a run, in order. -/
def progressPercents (msgs : List WorkerMsg) : List ℕ :=
  msgs.filterMap (fun m => match m with | .progress p _ => some p | _ => none)

/-- An input library the validator accepts. -/
def goodLib : LibraryInput := ⟨[], [], benignMeta⟩

/-- The validated form of `goodLib`. -/
def goodVLib : VLibrary := ⟨[], [], ⟨"v".data, "c".data, 0, some 0, none, none⟩⟩

/-- The content of claim C3, as amended: a successful run posts exactly
the four stage percentages 10, 40, 70, 100, in order, then the success
message; the 90% playlist stage is posted on no run at all. -/
def WorkerRunSpec (lib : LibraryInput) (v : VLibrary) : Prop :=
  workerRun (.ok ()) (.ok lib)
      = [.progress 10 PROGRESS_STAGES.FILE_READ.message,
         .progress 40 PROGRESS_STAGES.XML_PARSED.message,
         .progress 70 PROGRESS_STAGES.TRACKS_PARSED.message,
         .progress 100 PROGRESS_STAGES.VALIDATION_COMPLETE.message,
         .success v]
  ∧ progressPercents (workerRun (.ok ()) (.ok lib)) = [10, 40, 70, 100]
  ∧ ∀ (rr : Except JStr Unit) (pr : Except JStr LibraryInput) (m : JStr),
      WorkerMsg.progress 90 m ∉ workerRun rr pr

/-- Claim C3 (corrected): on every successful parse run the worker emits
exactly four progress notifications — 10 (read), 40 (decode), 70 (before
validation), 100 (validation complete) — in that order before the success
notification; the fixed 90% playlist stage of `PROGRESS_STAGES` is never
emitted. -/
theorem worker_success_four_stages (lib : LibraryInput) (v : VLibrary)
    (h : validateLibrary lib = .ok v) : WorkerRunSpec lib v := by
  refine ⟨?_, ?_, ?_⟩
  · simp [workerRun, h, PROGRESS_STAGES]
  · simp [workerRun, h, PROGRESS_STAGES, progressPercents]
  · intro rr pr m
    unfold workerRun
    rcases rr with e | u
    · simp [PROGRESS_STAGES]
    · rcases pr with e | lib'
      · simp [PROGRESS_STAGES]
      · rcases hv : validateLibrary lib' with e | v'
        · simp [hv, PROGRESS_STAGES]
        · simp [hv, PROGRESS_STAGES]

/-- Witness for `worker_success_four_stages` at a concrete accepted
library. -/
theorem worker_success_four_stages_witness : WorkerRunSpec goodLib goodVLib :=
  worker_success_four_stages goodLib goodVLib (by decide)

/-- Claim C3, counterexample to the claim as stated: a concrete successful
run whose progress percentages are `[10, 40, 70, 100]`, not the five
claimed percentages `[10, 40, 70, 90, 100]`, although it does end in the
success notification. -/
theorem worker_stages_counterexample :
    (workerRun (.ok ()) (.ok goodLib)).getLast? = some (.success goodVLib)
    ∧ progressPercents (workerRun (.ok ()) (.ok goodLib)) ≠ [10, 40, 70, 90, 100] := by
  refine ⟨by decide, by decide⟩

end CrateHacker
